import Mathlib

/-!
# Verification of the New York Fed data-connector pipeline

Shallow embedding, in Lean 4, of the incremental-ingestion pipeline of the
`new-york-fed` connector: the field-parsing helpers (`src/src/utils/__init__.py`
and the per-asset copies), the 90-day date-range chunking loop shared by all
sources, the tenacity retry wrapper around per-chunk fetches, and the
watermark/state updates of the ingest and transform runs for the treasury,
reference-rates, AMBS and FX-swaps sources.

Modelling conventions:
* Python scalar values that flow through the parsers are modelled by `PyVal`
  (`None`, `str`, `int`, `float`, `bool`, plus an opaque constructor standing
  for any other object).  Python floats are modelled as exact rationals: every
  literal these pipelines parse is a finite decimal, so no rounding behaviour
  is exercised.
* Calendar dates appearing as *strings* are parsed into `PyDate` through
  faithful models of `datetime.strptime` for the two formats the code uses.
  Dates appearing as *values inside pipeline state* (watermarks, chunk bounds)
  are modelled as day ordinals (`Nat`), the faithful image of Python `date`
  arithmetic with `timedelta(days = k)`.
* Fallible Python code (raising `ValueError` / `TypeError` / `KeyError`) is
  modelled with `Except PyError`; code that catches an exception and returns
  `None` is modelled with `Option`.
-/

/-- Errors raised by the modelled Python code. -/
inductive PyError where
  | typeError
  | valueError
  | keyError
deriving DecidableEq, Repr

/-- A Python scalar value as it appears in the connector's parsed JSON/CSV
payloads: `None`, `str`, `int`, `float`, `bool`, or any other object
(`vObj`), which the numeric conversions reject with `TypeError`. -/
inductive PyVal where
  | vNone
  | vStr (s : String)
  | vInt (n : Int)
  | vFloat (q : Rat)
  | vBool (b : Bool)
  | vObj
deriving DecidableEq, Repr

/-- Value of a list of decimal digit characters (most significant first). -/
def digitsToNat (l : List Char) : Nat :=
  l.foldl (fun a c => a * 10 + (c.toNat - 48)) 0

/-- An optional leading `+`/`-` sign; returns `(isNegative, rest)`. -/
def parseSign : List Char → Bool × List Char
  | '-' :: rest => (true, rest)
  | '+' :: rest => (false, rest)
  | l => (false, l)

/-- The exponent suffix of a Python float literal: either nothing, or
`e`/`E`, an optional sign and a nonempty digit run consuming the rest. -/
def parseExpPart : List Char → Option Int
  | [] => some 0
  | c :: rest =>
    if c = 'e' ∨ c = 'E' then
      let sg := parseSign rest
      let sp := sg.2.span Char.isDigit
      if sp.1.isEmpty ∨ ¬ sp.2.isEmpty then none
      else some (if sg.1 then -(digitsToNat sp.1 : Int) else (digitsToNat sp.1 : Int))
    else none

/-- Model of Python's `float(str)` on the finite decimal literals the
connector feeds it: optional surrounding whitespace, optional sign, digits
with an optional fractional part (at least one digit overall) and an optional
exponent.  Returns `none` where `float()` raises `ValueError`.  (The `inf` /
`nan` / underscore-separator spellings never occur in these payloads and are
not modelled.)  The value `mantissa * 10 ^ exponent` is assembled with
integer arithmetic and one `Rat.divInt`. -/
def pythonFloat (s : String) : Option Rat :=
  let l := ((s.toList.dropWhile Char.isWhitespace).reverse.dropWhile
    Char.isWhitespace).reverse
  let sg := parseSign l
  let ipSp := sg.2.span Char.isDigit
  let fpSp : List Char × List Char :=
    match ipSp.2 with
    | '.' :: rest => rest.span Char.isDigit
    | _ => ([], ipSp.2)
  if ipSp.1.isEmpty ∧ fpSp.1.isEmpty then none
  else
    match parseExpPart fpSp.2 with
    | none => none
    | some ex =>
      let mantNat : Nat := digitsToNat ipSp.1 * 10 ^ fpSp.1.length + digitsToNat fpSp.1
      let num : Int := if sg.1 then -(mantNat : Int) else (mantNat : Int)
      if 0 ≤ ex then
        some (Rat.divInt (num * 10 ^ ex.toNat) (10 ^ fpSp.1.length))
      else
        some (Rat.divInt num (10 ^ fpSp.1.length * 10 ^ (-ex).toNat))

/-- Model of `value.replace(",", "")`, the comma-stripping step of
`parse_number`. -/
def stripCommas (s : String) : String :=
  String.mk (s.toList.filter (fun c => c ≠ ','))

/-- `parse_number` from `src/src/utils/__init__.py` (the per-asset copies in
`assets/treasury_operations` and `assets/ambs_operations` are textually
identical): `None`, `""` and `"NA"` map to `None`; strings have commas
stripped and are converted with `float`; conversion failure (`ValueError` /
`TypeError`) is caught and yields `None`. -/
def parse_number (v : PyVal) : Option Rat :=
  if v = PyVal.vNone ∨ v = PyVal.vStr "" ∨ v = PyVal.vStr "NA" then none
  else
    match v with
    | PyVal.vStr s => pythonFloat (stripCommas s)
    | PyVal.vInt n => some (n : Rat)
    | PyVal.vFloat q => some q
    | PyVal.vBool b => some (if b then 1 else 0)
    | PyVal.vObj => none
    | PyVal.vNone => none

/-- Model of Python's `str(value)`.  For floats only the fact that the result
is never one of `"true"`, `"1"`, `"yes"` after lowering matters to the code
modelled here (Python's float `str` always carries a `.` or an exponent), and
the model preserves exactly that. -/
def pyStr : PyVal → String
  | PyVal.vNone => "None"
  | PyVal.vStr s => s
  | PyVal.vInt n => toString n
  | PyVal.vFloat q => toString q ++ (if q.den = 1 then ".0" else "")
  | PyVal.vBool b => if b then "True" else "False"
  | PyVal.vObj => "<object>"

/-- ASCII lower-casing of one character; the payloads these pipelines lower
are ASCII, where Python's `str.lower` agrees with this. -/
def lowerChar (c : Char) : Char :=
  if 'A' ≤ c ∧ c ≤ 'Z' then Char.ofNat (c.toNat + 32) else c

/-- `s.lower()` on ASCII strings. -/
def toLowerStr (s : String) : String :=
  String.mk (s.toList.map lowerChar)

/-- `parse_bool` from `src/src/utils/__init__.py` (identical copy in
`assets/fx_swaps/fx_swaps.py`): `None` and `""` give `None`; otherwise the
result is `str(value).lower() in ['true', '1', 'yes']` — a `bool`, so `False`
(not `None`) for every other non-empty input. -/
def parse_bool (v : PyVal) : Option Bool :=
  if v = PyVal.vNone ∨ v = PyVal.vStr "" then none
  else some ((["true", "1", "yes"] : List String).contains (toLowerStr (pyStr v)))

/-- A Python `datetime.date`. -/
structure PyDate where
  year : Nat
  month : Nat
  day : Nat
deriving DecidableEq, Repr

/-- Gregorian leap-year rule, as in `datetime`. -/
def isLeapYear (y : Nat) : Bool :=
  decide ((y % 4 = 0 ∧ y % 100 ≠ 0) ∨ y % 400 = 0)

/-- Length of a month, as in `datetime`. -/
def daysInMonth (y m : Nat) : Nat :=
  if m = 2 then (if isLeapYear y then 29 else 28)
  else if m = 4 ∨ m = 6 ∨ m = 9 ∨ m = 11 then 30
  else 31

/-- Validity of a year/month/day triple for `datetime.date`. -/
def validYMD (y m d : Nat) : Bool :=
  decide (1 ≤ y ∧ y ≤ 9999 ∧ 1 ≤ m ∧ m ≤ 12 ∧ 1 ≤ d ∧ d ≤ daysInMonth y m)

/-- Split a character list at every occurrence of `sep` (the semantics of
`String.split` on a single separator character). -/
def splitChar (sep : Char) : List Char → List (List Char)
  | [] => [[]]
  | c :: rest =>
    let r := splitChar sep rest
    if c = sep then [] :: r
    else
      match r with
      | [] => [[c]]
      | h :: t => (c :: h) :: t

/-- A numeric `strptime` field: a nonempty all-digit run of bounded length. -/
def numField (l : List Char) (maxLen : Nat) : Option Nat :=
  if l.isEmpty ∨ maxLen < l.length ∨ ¬ l.all Char.isDigit then none
  else some (digitsToNat l)

/-- `datetime.strptime(s, "%Y-%m-%d").date()`, returning `none` where Python
raises `ValueError`. -/
def strptimeYMD (s : String) : Option PyDate :=
  match splitChar '-' s.toList with
  | [ys, ms, ds] =>
    match numField ys 4, numField ms 2, numField ds 2 with
    | some y, some m, some d => if validYMD y m d then some ⟨y, m, d⟩ else none
    | _, _, _ => none
  | _ => none

/-- `datetime.strptime(s, "%m/%d/%Y").date()`, returning `none` where Python
raises `ValueError`. -/
def strptimeMDY (s : String) : Option PyDate :=
  match splitChar '/' s.toList with
  | [ms, ds, ys] =>
    match numField ms 2, numField ds 2, numField ys 4 with
    | some m, some d, some y => if validYMD y m d then some ⟨y, m, d⟩ else none
    | _, _, _ => none
  | _ => none

/-- The two date formats used by `parse_date`. -/
inductive DateFormat where
  | ymd
  | mdy
deriving DecidableEq, Repr

/-- Dispatch of `datetime.strptime` on a `DateFormat`. -/
def strptimeDate : DateFormat → String → Option PyDate
  | DateFormat.ymd, s => strptimeYMD s
  | DateFormat.mdy, s => strptimeMDY s

/-- The `for fmt in formats: try ... except ValueError: continue` loop of
`parse_date`. -/
def firstParse : List DateFormat → String → Option PyDate
  | [], _ => none
  | f :: rest, s =>
    match strptimeDate f s with
    | some d => some d
    | none => firstParse rest s

/-- `parse_date` from `src/src/utils/__init__.py`: `None`/`""` give `None`;
otherwise each format of `formats` (defaulting to
`["%Y-%m-%d", "%m/%d/%Y"]`) is tried in order, and `None` is returned when
all fail.  The Python default argument `formats=None` is the `none` case of
the second parameter. -/
def parse_date (dateStr : Option String) (formats : Option (List DateFormat)) :
    Option PyDate :=
  match dateStr with
  | none => none
  | some s =>
    if s = "" then none
    else firstParse (formats.getD [DateFormat.ymd, DateFormat.mdy]) s

/-- The local `parse_date` of `src/assets/reference_rates/reference_rates.py`
(lines 30–32): a bare `datetime.strptime(date_str, "%Y-%m-%d").date()` with no
guard and no `try`, so it raises `TypeError` on `None` and `ValueError` on any
string the fixed format rejects. -/
def refRatesAssetParseDate : Option String → Except PyError PyDate
  | none => Except.error PyError.typeError
  | some s =>
    match strptimeYMD s with
    | some d => Except.ok d
    | none => Except.error PyError.valueError

example : parse_number PyVal.vNone = none := by rfl
example : parse_number (PyVal.vStr "1,234.5") = some (2469 / 2 : Rat) := by with_unfolding_all rfl
example : parse_number (PyVal.vStr "abc") = none := by rfl
example : parse_date (some "2020-01-01") none = some ⟨2020, 1, 1⟩ := by rfl
example : parse_date (some "01/15/2021") none = some ⟨2021, 1, 15⟩ := by rfl
example : parse_bool (PyVal.vStr "no") = some false := by rfl
example : parse_bool (PyVal.vStr "TRUE") = some true := by rfl

/-! ## Date-range chunking

The 90-day chunking loop, shared verbatim by every source's historical fetch
(`fetch_historical_operations_async` in `src/src/ingest/treasury.py`,
`fetch_historical_data` in `src/assets/reference_rates/reference_rates.py`,
and the per-asset copies): while `current_start <= end_date`, fetch the chunk
`[current_start, min(current_start + 89 days, end_date)]` and advance
`current_start = chunk_end + 1 day`.  Dates are day ordinals. -/

/-- The chunk span constant: `timedelta(days=89)`, i.e. 90-day chunks. -/
def chunkSpanDays : Nat := 89

/-- Worker for `chunks`, structurally recursive on a fuel argument so that
the kernel can evaluate it on concrete inputs; `e + 1 - s` units of fuel
always suffice (shown by `chunksGo_fuel`). -/
def chunksGo (e : Nat) : Nat → Nat → List (Nat × Nat)
  | _, 0 => []
  | s, fuel + 1 =>
    if s ≤ e then
      (s, min (s + chunkSpanDays) e) :: chunksGo e (min (s + chunkSpanDays) e + 1) fuel
    else []

/-- For exhausted ranges the worker returns `[]` at any fuel. -/
theorem chunksGo_of_gt (e : Nat) {s : Nat} (h : e < s) :
    ∀ fuel, chunksGo e s fuel = [] := by
  intro fuel
  cases fuel with
  | zero => rfl
  | succ n => simp [chunksGo, Nat.not_le.mpr h]

/-- The worker's result does not depend on the fuel, provided the fuel covers
the loop measure `e + 1 - s`. -/
theorem chunksGo_fuel (e : Nat) :
    ∀ f1 f2 s, e + 1 - s ≤ f1 → e + 1 - s ≤ f2 →
      chunksGo e s f1 = chunksGo e s f2 := by
  intro f1
  induction f1 with
  | zero =>
    intro f2 s h1 h2
    have hgt : e < s := by omega
    rw [chunksGo_of_gt e hgt, chunksGo_of_gt e hgt]
  | succ n ih =>
    intro f2 s h1 h2
    by_cases hle : s ≤ e
    · cases f2 with
      | zero => omega
      | succ g =>
        have hm : s ≤ min (s + chunkSpanDays) e := le_min (Nat.le_add_right _ _) hle
        simp only [chunksGo, if_pos hle]
        rw [ih g (min (s + chunkSpanDays) e + 1) (by omega) (by omega)]
    · rw [chunksGo_of_gt e (by omega), chunksGo_of_gt e (by omega)]

/-- The list of `(startDate, endDate)` chunks the loop walks, in loop order. -/
def chunks (s e : Nat) : List (Nat × Nat) :=
  chunksGo e s (e + 1 - s)

/-- Worker for `fetchLoop`, structurally recursive on fuel (see `chunksGo`). -/
def fetchLoopGo {α : Type} (fetch : Nat → Nat → List α) (e : Nat) :
    Nat → List α → Nat → List α
  | _, acc, 0 => acc
  | s, acc, fuel + 1 =>
    if s ≤ e then
      fetchLoopGo fetch e (min (s + chunkSpanDays) e + 1)
        (acc ++ fetch s (min (s + chunkSpanDays) e)) fuel
    else acc

theorem fetchLoopGo_of_gt {α : Type} (fetch : Nat → Nat → List α) (e : Nat)
    {s : Nat} (h : e < s) : ∀ acc fuel, fetchLoopGo fetch e s acc fuel = acc := by
  intro acc fuel
  cases fuel with
  | zero => rfl
  | succ n => simp [fetchLoopGo, Nat.not_le.mpr h]

theorem fetchLoopGo_fuel {α : Type} (fetch : Nat → Nat → List α) (e : Nat) :
    ∀ f1 f2 s acc, e + 1 - s ≤ f1 → e + 1 - s ≤ f2 →
      fetchLoopGo fetch e s acc f1 = fetchLoopGo fetch e s acc f2 := by
  intro f1
  induction f1 with
  | zero =>
    intro f2 s acc h1 h2
    have hgt : e < s := by omega
    rw [fetchLoopGo_of_gt fetch e hgt, fetchLoopGo_of_gt fetch e hgt]
  | succ n ih =>
    intro f2 s acc h1 h2
    by_cases hle : s ≤ e
    · cases f2 with
      | zero => omega
      | succ g =>
        have hm : s ≤ min (s + chunkSpanDays) e := le_min (Nat.le_add_right _ _) hle
        simp only [fetchLoopGo, if_pos hle]
        rw [ih g (min (s + chunkSpanDays) e + 1) _ (by omega) (by omega)]
    · rw [fetchLoopGo_of_gt fetch e (by omega), fetchLoopGo_of_gt fetch e (by omega)]

/-- The accumulating fetch loop itself: `all_auctions.extend(fetch(chunk))`
per chunk, returning the accumulator when `current_start > end_date`. -/
def fetchLoop {α : Type} (fetch : Nat → Nat → List α) (s e : Nat)
    (acc : List α) : List α :=
  fetchLoopGo fetch e s acc (e + 1 - s)

theorem chunks_of_le {s e : Nat} (h : s ≤ e) :
    chunks s e = (s, min (s + chunkSpanDays) e) ::
      chunks (min (s + chunkSpanDays) e + 1) e := by
  unfold chunks
  have h1 : e + 1 - s = (e - s) + 1 := by omega
  rw [h1]
  simp only [chunksGo, if_pos h]
  have hm : s ≤ min (s + chunkSpanDays) e := le_min (Nat.le_add_right _ _) h
  rw [chunksGo_fuel e (e - s) (e + 1 - (min (s + chunkSpanDays) e + 1)) _ (by omega)
    (Nat.le_refl _)]

theorem chunks_of_gt {s e : Nat} (h : e < s) : chunks s e = [] := by
  unfold chunks
  exact chunksGo_of_gt e h _

theorem fetchLoop_of_le {α : Type} (fetch : Nat → Nat → List α) {s e : Nat}
    (acc : List α) (h : s ≤ e) :
    fetchLoop fetch s e acc =
      fetchLoop fetch (min (s + chunkSpanDays) e + 1) e
        (acc ++ fetch s (min (s + chunkSpanDays) e)) := by
  unfold fetchLoop
  have h1 : e + 1 - s = (e - s) + 1 := by omega
  rw [h1]
  simp only [fetchLoopGo, if_pos h]
  have hm : s ≤ min (s + chunkSpanDays) e := le_min (Nat.le_add_right _ _) h
  rw [fetchLoopGo_fuel fetch e (e - s) (e + 1 - (min (s + chunkSpanDays) e + 1)) _ _
    (by omega) (Nat.le_refl _)]

theorem fetchLoop_of_gt {α : Type} (fetch : Nat → Nat → List α) {s e : Nat}
    (acc : List α) (h : e < s) : fetchLoop fetch s e acc = acc := by
  unfold fetchLoop
  exact fetchLoopGo_of_gt fetch e h _ _

/-- Induction along the chunking loop: the measure `e + 1 - s` strictly
decreases at every iteration, which is also the termination argument. -/
theorem chunks_rec_aux (motive : Nat → Nat → Prop)
    (base : ∀ s e, e < s → motive s e)
    (step : ∀ s e, s ≤ e → motive (min (s + chunkSpanDays) e + 1) e → motive s e)
    (s e : Nat) : motive s e := by
  have H : ∀ n s e, e + 1 - s ≤ n → motive s e := by
    intro n
    induction n with
    | zero => intro s e h; exact base s e (by omega)
    | succ n ih =>
      intro s e h
      by_cases hle : s ≤ e
      · refine step s e hle (ih _ _ ?_)
        have hm : s ≤ min (s + chunkSpanDays) e := le_min (Nat.le_add_right _ _) hle
        omega
      · exact base s e (by omega)
  exact H (e + 1 - s) s e (Nat.le_refl _)

/-- Every chunk starts no earlier than the loop start, ends no later than the
range end, and its end is computed as `min(start + span, end)`. -/
theorem chunks_shape (s e : Nat) :
    ∀ c ∈ chunks s e,
      s ≤ c.1 ∧ c.1 ≤ c.2 ∧ c.2 ≤ e ∧ c.2 = min (c.1 + chunkSpanDays) e := by
  refine chunks_rec_aux
    (fun s e => ∀ c ∈ chunks s e,
      s ≤ c.1 ∧ c.1 ≤ c.2 ∧ c.2 ≤ e ∧ c.2 = min (c.1 + chunkSpanDays) e) ?_ ?_ s e
  · intro s e h c hc
    rw [chunks_of_gt h] at hc
    simp at hc
  · intro s e h ih c hc
    rw [chunks_of_le h] at hc
    rcases List.mem_cons.mp hc with rfl | hc
    · have hm : s ≤ min (s + chunkSpanDays) e := le_min (Nat.le_add_right _ _) h
      exact ⟨Nat.le_refl _, hm, min_le_right _ _, rfl⟩
    · have := ih c hc
      have hm : s ≤ min (s + chunkSpanDays) e := le_min (Nat.le_add_right _ _) h
      omega

/-- Adjacent chunks are contiguous: each next chunk starts one day after the
previous chunk ends. -/
theorem chunks_chain (s e : Nat) :
    List.Chain' (fun c c' : Nat × Nat => c'.1 = c.2 + 1) (chunks s e) := by
  refine chunks_rec_aux
    (fun s e => List.Chain' (fun c c' : Nat × Nat => c'.1 = c.2 + 1) (chunks s e))
    ?_ ?_ s e
  · intro s e h
    rw [chunks_of_gt h]
    exact List.chain'_nil
  · intro s e h ih
    rw [chunks_of_le h]
    refine List.chain'_cons'.mpr ⟨?_, ih⟩
    intro b hb
    by_cases h2 : min (s + chunkSpanDays) e + 1 ≤ e
    · rw [chunks_of_le h2] at hb
      simp only [List.head?_cons, Option.mem_def, Option.some.injEq] at hb
      subst hb
      rfl
    · rw [chunks_of_gt (by omega)] at hb
      simp at hb

/-- Chunks are pairwise disjoint and in strictly ascending order: every chunk
ends strictly before any later chunk starts. -/
theorem chunks_pairwise (s e : Nat) :
    List.Pairwise (fun c c' : Nat × Nat => c.2 < c'.1) (chunks s e) := by
  refine chunks_rec_aux
    (fun s e => List.Pairwise (fun c c' : Nat × Nat => c.2 < c'.1) (chunks s e))
    ?_ ?_ s e
  · intro s e h
    rw [chunks_of_gt h]
    exact List.Pairwise.nil
  · intro s e h ih
    rw [chunks_of_le h]
    refine List.Pairwise.cons ?_ ih
    intro c hc
    have hs := chunks_shape _ _ c hc
    omega

/-- The first chunk starts at the range start. -/
theorem chunks_head (s e : Nat) (h : s ≤ e) :
    (chunks s e).head? = some (s, min (s + chunkSpanDays) e) := by
  rw [chunks_of_le h]
  rfl

/-- The last chunk ends exactly at the range end. -/
theorem chunks_last (s e : Nat) (h : s ≤ e) :
    ((chunks s e).getLast?).map Prod.snd = some e := by
  refine chunks_rec_aux
    (fun s e => s ≤ e → ((chunks s e).getLast?).map Prod.snd = some e) ?_ ?_ s e h
  · intro s e hgt hle
    omega
  · intro s e hle ih _
    rw [chunks_of_le hle]
    cases htail : chunks (min (s + chunkSpanDays) e + 1) e with
    | nil =>
      have h2 : ¬ (min (s + chunkSpanDays) e + 1 ≤ e) := by
        intro hcon
        rw [chunks_of_le hcon] at htail
        exact List.noConfusion htail
      have hm : min (s + chunkSpanDays) e ≤ e := min_le_right _ _
      have he : min (s + chunkSpanDays) e = e := by omega
      simp [he]
    | cons c rest =>
      have h2 : min (s + chunkSpanDays) e + 1 ≤ e := by
        by_contra hcon
        rw [chunks_of_gt (by omega)] at htail
        exact List.noConfusion htail
      rw [List.getLast?_cons_cons]
      rw [← htail]
      exact ih h2

/-- Every day of the range is covered by some chunk. -/
theorem chunks_cover (s e : Nat) :
    ∀ d, s ≤ d → d ≤ e → ∃ c ∈ chunks s e, c.1 ≤ d ∧ d ≤ c.2 := by
  refine chunks_rec_aux
    (fun s e => ∀ d, s ≤ d → d ≤ e → ∃ c ∈ chunks s e, c.1 ≤ d ∧ d ≤ c.2) ?_ ?_ s e
  · intro s e h d hd1 hd2
    omega
  · intro s e h ih d hd1 hd2
    by_cases hd : d ≤ min (s + chunkSpanDays) e
    · refine ⟨(s, min (s + chunkSpanDays) e), ?_, hd1, hd⟩
      rw [chunks_of_le h]
      exact List.mem_cons_self _ _
    · obtain ⟨c, hc, hcd⟩ := ih d (by omega) hd2
      refine ⟨c, ?_, hcd⟩
      rw [chunks_of_le h]
      exact List.mem_cons_of_mem _ hc

/-- Two chunks containing a common day are the same chunk (no overlap). -/
theorem chunks_no_overlap (s e : Nat) {c c' : Nat × Nat}
    (hc : c ∈ chunks s e) (hc' : c' ∈ chunks s e) {d : Nat}
    (h1 : c.1 ≤ d) (h2 : d ≤ c.2) (h1' : c'.1 ≤ d) (h2' : d ≤ c'.2) : c = c' := by
  have hp := chunks_pairwise s e
  rw [List.pairwise_iff_get] at hp
  obtain ⟨i, hi⟩ := List.get_of_mem hc
  obtain ⟨j, hj⟩ := List.get_of_mem hc'
  rcases Nat.lt_trichotomy i.val j.val with hij | hij | hij
  · have := hp i j hij
    rw [hi, hj] at this
    omega
  · rw [← hi, ← hj]
    congr 1
    exact Fin.ext hij
  · have := hp j i hij
    rw [hi, hj] at this
    omega

/-- The accumulating loop produces exactly the concatenation, in chunk order,
of the per-chunk fetch results appended to the initial accumulator. -/
theorem fetchLoop_eq_chunks {α : Type} (fetch : Nat → Nat → List α) (s e : Nat)
    (acc : List α) :
    fetchLoop fetch s e acc = acc ++ (chunks s e).flatMap (fun c => fetch c.1 c.2) := by
  refine chunks_rec_aux
    (fun s e => ∀ acc, fetchLoop fetch s e acc =
      acc ++ (chunks s e).flatMap (fun c => fetch c.1 c.2)) ?_ ?_ s e acc
  · intro s e h acc
    rw [fetchLoop_of_gt _ _ h, chunks_of_gt h]
    simp
  · intro s e h ih acc
    rw [fetchLoop_of_le _ _ h, chunks_of_le h, ih]
    simp

/-- A single-day range produces exactly one chunk. -/
theorem chunks_single (s : Nat) : chunks s s = [(s, s)] := by
  rw [chunks_of_le (Nat.le_refl s)]
  have hm : min (s + chunkSpanDays) s = s := min_eq_right (Nat.le_add_right _ _)
  rw [hm, chunks_of_gt (Nat.lt_succ_self s)]

/-- **C2**: for every `DateRange` with `start ≤ end`, the chunking loop
produces the chunks `[current_start, min(current_start + span - 1, end)]`;
they are well-formed and contained in the range, contiguous (each next chunk
starts the day after the previous one ends), pairwise non-overlapping and in
ascending order, their union is exactly `[start, end]` (first chunk starts at
`start`, last chunk ends at `end`, every day covered by exactly one chunk), a
single-day range yields exactly one chunk, and the accumulating fetch loop
returns the per-chunk results concatenated in chunk order.  Termination for
every such range is witnessed by `chunks` and `fetchLoop` being total Lean
functions (defined by the strictly decreasing measure `end + 1 - start`). -/
theorem chunking_loop_correct (s e : Nat) (h : s ≤ e) :
    (∀ c ∈ chunks s e,
      s ≤ c.1 ∧ c.1 ≤ c.2 ∧ c.2 ≤ e ∧ c.2 = min (c.1 + chunkSpanDays) e)
    ∧ List.Chain' (fun c c' : Nat × Nat => c'.1 = c.2 + 1) (chunks s e)
    ∧ List.Pairwise (fun c c' : Nat × Nat => c.2 < c'.1) (chunks s e)
    ∧ (∀ d, (s ≤ d ∧ d ≤ e) ↔ ∃ c ∈ chunks s e, c.1 ≤ d ∧ d ≤ c.2)
    ∧ (∀ c c', c ∈ chunks s e → c' ∈ chunks s e →
        (∃ d, c.1 ≤ d ∧ d ≤ c.2 ∧ c'.1 ≤ d ∧ d ≤ c'.2) → c = c')
    ∧ (chunks s e).head? = some (s, min (s + chunkSpanDays) e)
    ∧ ((chunks s e).getLast?).map Prod.snd = some e
    ∧ (s = e → chunks s e = [(s, s)])
    ∧ (∀ (α : Type) (fetch : Nat → Nat → List α),
        fetchLoop fetch s e [] = (chunks s e).flatMap (fun c => fetch c.1 c.2)) := by
  refine ⟨chunks_shape s e, chunks_chain s e, chunks_pairwise s e, ?_, ?_, ?_, ?_, ?_, ?_⟩
  · intro d
    constructor
    · intro hd
      exact chunks_cover s e d hd.1 hd.2
    · rintro ⟨c, hc, hd1, hd2⟩
      have := chunks_shape s e c hc
      omega
  · rintro c c' hc hc' ⟨d, hd1, hd2, hd3, hd4⟩
    exact chunks_no_overlap s e hc hc' hd1 hd2 hd3 hd4
  · exact chunks_head s e h
  · exact chunks_last s e h
  · intro hse
    subst hse
    exact chunks_single s
  · intro α fetch
    rw [fetchLoop_eq_chunks]
    rfl

/-- Witness for `chunking_loop_correct` at the concrete range `[3, 200]`. -/
theorem chunking_loop_correct_witness :
    (3 : Nat) ≤ 200 ∧
    ((∀ c ∈ chunks 3 200,
      3 ≤ c.1 ∧ c.1 ≤ c.2 ∧ c.2 ≤ 200 ∧ c.2 = min (c.1 + chunkSpanDays) 200)
    ∧ List.Chain' (fun c c' : Nat × Nat => c'.1 = c.2 + 1) (chunks 3 200)
    ∧ List.Pairwise (fun c c' : Nat × Nat => c.2 < c'.1) (chunks 3 200)
    ∧ (∀ d, (3 ≤ d ∧ d ≤ 200) ↔ ∃ c ∈ chunks 3 200, c.1 ≤ d ∧ d ≤ c.2)
    ∧ (∀ c c', c ∈ chunks 3 200 → c' ∈ chunks 3 200 →
        (∃ d, c.1 ≤ d ∧ d ≤ c.2 ∧ c'.1 ≤ d ∧ d ≤ c'.2) → c = c')
    ∧ (chunks 3 200).head? = some (3, min (3 + chunkSpanDays) 200)
    ∧ ((chunks 3 200).getLast?).map Prod.snd = some 200
    ∧ ((3 : Nat) = 200 → chunks 3 200 = [(3, 3)])
    ∧ (∀ (α : Type) (fetch : Nat → Nat → List α),
        fetchLoop fetch 3 200 [] = (chunks 3 200).flatMap (fun c => fetch c.1 c.2))) :=
  ⟨by decide, chunking_loop_correct 3 200 (by decide)⟩

example : chunks 0 200 = [(0, 89), (90, 179), (180, 200)] := by rfl
example : fetchLoop (fun a b => [(a, b)]) 0 200 [] = [(0, 89), (90, 179), (180, 200)] := by rfl

/-! ## Treasury operations source

`src/src/ingest/treasury.py` (fetch, raw capture, watermark) and
`src/src/transforms/treasury_operations/main.py` (normalize, validate,
upload/publish).  Payload date fields are day ordinals per the header
conventions; `load_state` / `save_state` / `save_raw_json` belong to the
external `subsets_utils` StateStore/RawCapture collaborators and are modelled
from the spec as explicit state threaded through the run. -/

/-- One entry of an auction's `details` list, with the fields the transform
reads. -/
structure TsyDetail where
  parAmountAccepted : PyVal
  cusip : Option String
  securityDescription : Option String
  weightedAvgAccptPrice : PyVal
  leastFavoriteAccptPrice : PyVal
deriving DecidableEq, Repr

/-- One auction of the `treasury.auctions` payload, with the fields the
ingest and transform read (`none` = key absent). -/
structure TsyAuction where
  auctionStatus : Option String
  operationDate : Option Nat
  operationId : Option String
  operationType : Option String
  operationDirection : Option String
  settlementDate : Option Nat
  maturityRangeStart : Option Nat
  maturityRangeEnd : Option Nat
  auctionMethod : Option String
  totalParAmtSubmitted : PyVal
  releaseTime : Option String
  closeTime : Option String
  details : List TsyDetail
deriving DecidableEq, Repr

/-- One row of the `nyf_treasury_operations` output table. -/
structure TsyRecord where
  operation_date : Option Nat
  operation_id : Option String
  operation_type : Option String
  operation_direction : Option String
  settlement_date : Option Nat
  cusip : Option String
  security_description : Option String
  maturity_date_start : Option Nat
  maturity_date_end : Option Nat
  auction_method : Option String
  par_amount_submitted : Option Rat
  par_amount_accepted : Rat
  weighted_avg_price : Option Rat
  least_favorable_price : Option Rat
  release_time : Option String
  close_time : Option String
deriving DecidableEq, Repr

/-- The per-detail body of the transform's loop: skip the detail when
`parse_number(detail.get("parAmountAccepted"))` is `None` or `0`, otherwise
build the row. -/
def tsyDetailRecord (a : TsyAuction) (d : TsyDetail) : Option TsyRecord :=
  match parse_number d.parAmountAccepted with
  | none => none
  | some pa =>
    if pa = 0 then none
    else some
      { operation_date := a.operationDate
        operation_id := a.operationId
        operation_type := a.operationType
        operation_direction := a.operationDirection
        settlement_date := a.settlementDate
        cusip := d.cusip
        security_description := d.securityDescription
        maturity_date_start := a.maturityRangeStart
        maturity_date_end := a.maturityRangeEnd
        auction_method := a.auctionMethod
        par_amount_submitted := parse_number a.totalParAmtSubmitted
        par_amount_accepted := pa
        weighted_avg_price := parse_number d.weightedAvgAccptPrice
        least_favorable_price := parse_number d.leastFavoriteAccptPrice
        release_time := a.releaseTime
        close_time := a.closeTime }

/-- The record-building loop of the treasury transform `run`: skip auctions
whose `auctionStatus` is not `"Results"`, then one row per surviving entry of
`details` — an auction with an empty `details` list contributes no row at
all (there is no aggregate branch in this transform). -/
def tsyNormalize (auctions : List TsyAuction) : List TsyRecord :=
  auctions.flatMap fun a =>
    if a.auctionStatus = some "Results" then
      a.details.filterMap (tsyDetailRecord a)
    else []

/-- Day ordinal of 2020-01-01 (`datetime(2020, 1, 1).date()`), the treasury
ingest's default start when no watermark exists. -/
def treasuryEpoch : Nat := 18262

/-- The ingest's max-date scan: `max_date = op_date` whenever the auction has
an `operationDate` and it exceeds the running maximum. -/
def tsyMaxOpDate (auctions : List TsyAuction) : Option Nat :=
  auctions.foldl
    (fun m a =>
      match a.operationDate with
      | some d =>
        match m with
        | some mx => if mx < d then some d else some mx
        | none => some d
      | none => m)
    none

/-- The raw JSON blob `save_raw_json` stores for `treasury_operations`. -/
structure TsyRaw where
  auctions : List TsyAuction
  start_date : Nat
  end_date : Nat
deriving DecidableEq, Repr

/-- Modelled from the spec: the `subsets_utils` StateStore (`load_state` /
`save_state`) and RawCapture (`save_raw_json` / `load_raw_json`) are external
collaborators; per spec §2 and §4.1/§4.3 they persist a per-source watermark
record and the latest raw payload, here carried as explicit fields. -/
structure TsyState where
  watermark : Option Nat
  rawCapture : Option TsyRaw
deriving DecidableEq, Repr

/-- The treasury ingest's range start: `last_date + 1 day` when a watermark
exists, else 2020-01-01. -/
def tsyResolveStart (watermark : Option Nat) : Nat :=
  match watermark with
  | some d => d + 1
  | none => treasuryEpoch

/-- `run` of `src/src/ingest/treasury.py`: resolve the range from the
watermark (`last_date + 1 day`, else 2020-01-01) to today, return unchanged
when `start_date > end_date`, otherwise fetch all chunks, save the raw blob,
and — if any auctions were fetched and a maximum `operationDate` exists —
overwrite the watermark with that maximum.  The watermark write happens here,
during ingest, before any validation or publish. -/
def tsyIngestRun (today : Nat) (api : Nat → Nat → List TsyAuction)
    (st : TsyState) : TsyState :=
  let start := tsyResolveStart st.watermark
  if today < start then st
  else
    let auctions := fetchLoop api start today []
    let st1 : TsyState := { st with rawCapture := some ⟨auctions, start, today⟩ }
    if auctions.isEmpty then st1
    else
      match tsyMaxOpDate auctions with
      | some mx => { st1 with watermark := some mx }
      | none => st1

/-- Outcome of one transform run: early return with no records, a
`ValidationError` raised by `test(table)` (so `upload_data` / `publish` are
never reached), or a successful validate → upload → publish. -/
inductive TransformOutcome where
  | noRecords
  | validationError
  | published
deriving DecidableEq, Repr

/-- Modelled from the spec: `subsets_utils.validate` (the SchemaValidator) is
external; per spec §4.5 it raises `ValidationError` on any violation of the
declared spec.  The treasury transform's `test` declares
`not_null = ["operation_date", "operation_id", "par_amount_accepted"]` and
`min_rows = 10` (`src/src/transforms/treasury_operations/test.py`);
`par_amount_accepted` is non-null by construction of `TsyRecord`. -/
def tsyValidate (records : List TsyRecord) : Bool :=
  decide (10 ≤ records.length) &&
    records.all (fun r => r.operation_date.isSome && r.operation_id.isSome)

/-- Result of one transform run, recording which external calls the control
flow reached: `upload_data(table, ...)` and `publish(DATASET_ID, METADATA)`
(the Publisher collaborator). -/
structure TransformResult where
  outcome : TransformOutcome
  uploadCalled : Bool
  publishCalled : Bool
deriving DecidableEq, Repr

/-- `run` of `src/src/transforms/treasury_operations/main.py` on the captured
raw blob: build records; if none, return early; otherwise `test(table)` —
on validation failure the exception propagates before `upload_data` /
`publish` are reached; on success `upload_data` then `publish` run. -/
def tsyTransformRun (raw : TsyRaw) : TransformResult :=
  let records := tsyNormalize raw.auctions
  if records.isEmpty then ⟨TransformOutcome.noRecords, false, false⟩
  else if tsyValidate records then ⟨TransformOutcome.published, true, true⟩
  else ⟨TransformOutcome.validationError, false, false⟩

/-- One full `src/src/main.py` run for the treasury source: the ingest phase
(fetch → raw capture → watermark save) followed by the transform phase
(normalize → validate → upload/publish) on the latest capture.  The second
component is `none` when there is no capture to transform. -/
def tsyFullRun (today : Nat) (api : Nat → Nat → List TsyAuction)
    (st : TsyState) : TsyState × Option TransformResult :=
  let st1 := tsyIngestRun today api st
  match st1.rawCapture with
  | none => (st1, none)
  | some raw => (st1, some (tsyTransformRun raw))

/-- A detail with an accepted par amount of `"100"`. -/
def tsyDetailA : TsyDetail :=
  { parAmountAccepted := PyVal.vStr "100"
    cusip := some "912828ZZ0"
    securityDescription := some "Treasury Note"
    weightedAvgAccptPrice := PyVal.vStr "99.5"
    leastFavoriteAccptPrice := PyVal.vStr "99.4" }

/-- A `"Results"` auction dated 2020-01-01 with a single accepted detail. -/
def tsyAuctionA : TsyAuction :=
  { auctionStatus := some "Results"
    operationDate := some treasuryEpoch
    operationId := some "OP-1"
    operationType := some "Purchase"
    operationDirection := some "Buy"
    settlementDate := some (treasuryEpoch + 1)
    maturityRangeStart := none
    maturityRangeEnd := none
    auctionMethod := some "MultiplePrice"
    totalParAmtSubmitted := PyVal.vStr "500"
    releaseTime := some "11:30"
    closeTime := some "11:00"
    details := [tsyDetailA] }

example :
    tsyFullRun treasuryEpoch (fun _ _ => [tsyAuctionA]) ⟨none, none⟩ =
      (⟨some treasuryEpoch,
        some ⟨[tsyAuctionA], treasuryEpoch, treasuryEpoch⟩⟩,
       some ⟨TransformOutcome.validationError, false, false⟩) := by rfl

/-- **C1 counterexample**: a first run on 2020-01-01 against an API serving
one `"Results"` auction (one accepted detail) produces a 1-row table, below
the declared `min_rows = 10`, so validation raises — yet the stored watermark
is `some treasuryEpoch`, not its pre-run value `none`: the watermark was
written during ingest, before validation, contradicting the claim that a
validation failure leaves the stored watermark identical to its value before
the run. -/
theorem tsy_watermark_before_validation_cex :
    ((tsyFullRun treasuryEpoch (fun _ _ => [tsyAuctionA]) ⟨none, none⟩).2.map
        TransformResult.outcome = some TransformOutcome.validationError)
    ∧ (tsyFullRun treasuryEpoch (fun _ _ => [tsyAuctionA]) ⟨none, none⟩).1.watermark =
        some treasuryEpoch
    ∧ (⟨none, none⟩ : TsyState).watermark ≠ some treasuryEpoch := by
  refine ⟨rfl, rfl, ?_⟩
  simp

/-- **C1 (amended)**: if validation raises for the treasury source, the
publisher (`upload_data` / `publish`) is never invoked — but the watermark is
written during the ingest phase, immediately after the raw capture and before
any validation or publish: whenever the resolved range is non-empty and the
fetched auctions have a maximum `operationDate`, the watermark stored at the
end of the full run is that maximum, for every transform outcome; the
transform phase never modifies the stored state. -/
theorem tsy_watermark_written_during_ingest (today : Nat)
    (api : Nat → Nat → List TsyAuction) (st : TsyState) (mx : Nat)
    (h : tsyResolveStart st.watermark ≤ today)
    (hmx : tsyMaxOpDate (fetchLoop api (tsyResolveStart st.watermark) today []) =
      some mx) :
    (tsyFullRun today api st).1.watermark = some mx
    ∧ (tsyFullRun today api st).1 = tsyIngestRun today api st
    ∧ (∀ raw : TsyRaw,
        (tsyTransformRun raw).outcome = TransformOutcome.validationError →
        (tsyTransformRun raw).uploadCalled = false
        ∧ (tsyTransformRun raw).publishCalled = false) := by
  have hfull : (tsyFullRun today api st).1 = tsyIngestRun today api st := by
    unfold tsyFullRun
    cases hc : (tsyIngestRun today api st).rawCapture <;> simp [hc]
  have hne : (fetchLoop api (tsyResolveStart st.watermark) today []).isEmpty = false := by
    cases hauce : fetchLoop api (tsyResolveStart st.watermark) today [] with
    | nil =>
      rw [hauce] at hmx
      exact Option.noConfusion hmx
    | cons a l => rfl
  have hing : (tsyIngestRun today api st).watermark = some mx := by
    unfold tsyIngestRun
    rw [if_neg (by omega)]
    simp only [hne, Bool.false_eq_true, if_false, hmx]
  refine ⟨by rw [hfull]; exact hing, hfull, ?_⟩
  intro raw hout
  unfold tsyTransformRun at hout ⊢
  by_cases h1 : (tsyNormalize raw.auctions).isEmpty
  · simp [h1] at hout
  · by_cases h2 : tsyValidate (tsyNormalize raw.auctions)
    · simp [h1, h2] at hout
    · simp [h1, h2]

/-- Witness for `tsy_watermark_written_during_ingest` at the concrete first
run of `tsy_watermark_before_validation_cex`. -/
theorem tsy_watermark_written_during_ingest_witness :
    tsyResolveStart (none : Option Nat) ≤ treasuryEpoch
    ∧ tsyMaxOpDate (fetchLoop (fun _ _ => [tsyAuctionA])
        (tsyResolveStart (none : Option Nat)) treasuryEpoch []) = some treasuryEpoch
    ∧ ((tsyFullRun treasuryEpoch (fun _ _ => [tsyAuctionA])
          ⟨none, none⟩).1.watermark = some treasuryEpoch
      ∧ (tsyFullRun treasuryEpoch (fun _ _ => [tsyAuctionA]) ⟨none, none⟩).1 =
          tsyIngestRun treasuryEpoch (fun _ _ => [tsyAuctionA]) ⟨none, none⟩
      ∧ (∀ raw : TsyRaw,
          (tsyTransformRun raw).outcome = TransformOutcome.validationError →
          (tsyTransformRun raw).uploadCalled = false
          ∧ (tsyTransformRun raw).publishCalled = false)) :=
  ⟨by rfl, by rfl,
    tsy_watermark_written_during_ingest treasuryEpoch (fun _ _ => [tsyAuctionA])
      ⟨none, none⟩ treasuryEpoch (by rfl) (by rfl)⟩

/-! ## AMBS operations source

`src/src/transforms/ambs_operations/main.py`: unlike the treasury transform,
this normalizer has an explicit `if details:` branch and synthesizes one
aggregate row when the list is empty. -/

/-- One entry of an AMBS auction's `details` list. -/
structure AmbsDetail where
  securityDescription : Option String
  amtAcceptedPar : PyVal
  inclusionExclusionFlag : Option String
deriving DecidableEq, Repr

/-- One auction of the AMBS payload, with the fields the transform reads. -/
structure AmbsAuction where
  auctionStatus : Option String
  operationDate : Option Nat
  operationId : Option String
  operationType : Option String
  operationDirection : Option String
  settlementDate : Option Nat
  classType : Option String
  method : Option String
  totalAmtSubmittedPar : PyVal
  totalAmtAcceptedPar : PyVal
  releaseTime : Option String
  closeTime : Option String
  details : List AmbsDetail
deriving DecidableEq, Repr

/-- One row of the `nyf_ambs_operations` output table. -/
structure AmbsRecord where
  operation_date : Option Nat
  operation_id : Option String
  operation_type : Option String
  operation_direction : Option String
  settlement_date : Option Nat
  security_description : Option String
  class_type : Option String
  method : Option String
  amount_submitted_par : Option Rat
  amount_accepted_par : Option Rat
  release_time : Option String
  close_time : Option String
  inclusion_flag : Option String
deriving DecidableEq, Repr

/-- The per-detail row of the AMBS transform (the `if details:` branch). -/
def ambsDetailRecord (a : AmbsAuction) (d : AmbsDetail) : AmbsRecord :=
  { operation_date := a.operationDate
    operation_id := a.operationId
    operation_type := a.operationType
    operation_direction := a.operationDirection
    settlement_date := a.settlementDate
    security_description := d.securityDescription
    class_type := a.classType
    method := a.method
    amount_submitted_par := parse_number a.totalAmtSubmittedPar
    amount_accepted_par := parse_number d.amtAcceptedPar
    release_time := a.releaseTime
    close_time := a.closeTime
    inclusion_flag := d.inclusionExclusionFlag }

/-- The synthesized aggregate row of the AMBS transform (the `else` branch):
operation-level totals, `security_description` set to the literal
`"Aggregate"`, `inclusion_flag` null. -/
def ambsAggregateRecord (a : AmbsAuction) : AmbsRecord :=
  { operation_date := a.operationDate
    operation_id := a.operationId
    operation_type := a.operationType
    operation_direction := a.operationDirection
    settlement_date := a.settlementDate
    security_description := some "Aggregate"
    class_type := a.classType
    method := a.method
    amount_submitted_par := parse_number a.totalAmtSubmittedPar
    amount_accepted_par := parse_number a.totalAmtAcceptedPar
    release_time := a.releaseTime
    close_time := a.closeTime
    inclusion_flag := none }

/-- The record-building loop of the AMBS transform `run`: skip non-`"Results"`
auctions; one row per detail when `details` is non-empty, otherwise exactly
one aggregate row. -/
def ambsNormalize (auctions : List AmbsAuction) : List AmbsRecord :=
  auctions.flatMap fun a =>
    if a.auctionStatus = some "Results" then
      if a.details.isEmpty then [ambsAggregateRecord a]
      else a.details.map (ambsDetailRecord a)
    else []

/-- A second treasury detail with an accepted par amount of `"200"`. -/
def tsyDetailB : TsyDetail :=
  { parAmountAccepted := PyVal.vStr "200"
    cusip := some "912828YY1"
    securityDescription := some "Treasury Bond"
    weightedAvgAccptPrice := PyVal.vStr "101.2"
    leastFavoriteAccptPrice := PyVal.vStr "101.0" }

/-- A `"Results"` treasury auction with two accepted details. -/
def tsyAuctionTwo : TsyAuction :=
  { tsyAuctionA with operationId := some "OP-2", details := [tsyDetailA, tsyDetailB] }

/-- A `"Results"` treasury auction with an empty `details` list. -/
def tsyAuctionZero : TsyAuction :=
  { tsyAuctionA with operationId := some "OP-3", details := [] }

/-- A `"Results"` AMBS auction with two details. -/
def ambsAuctionTwo : AmbsAuction :=
  { auctionStatus := some "Results"
    operationDate := some treasuryEpoch
    operationId := some "AMBS-2"
    operationType := some "Purchase"
    operationDirection := some "Buy"
    settlementDate := some (treasuryEpoch + 2)
    classType := some "30yr"
    method := some "Auction"
    totalAmtSubmittedPar := PyVal.vStr "500"
    totalAmtAcceptedPar := PyVal.vStr "300"
    releaseTime := some "11:30"
    closeTime := some "11:00"
    details := [⟨some "UMBS 30yr 2.0", PyVal.vStr "100", some "I"⟩,
                ⟨some "UMBS 30yr 2.5", PyVal.vStr "200", some "I"⟩] }

/-- A `"Results"` AMBS auction with an empty `details` list. -/
def ambsAuctionZero : AmbsAuction :=
  { ambsAuctionTwo with operationId := some "AMBS-3", details := [] }

/-- **C4 counterexample**: a treasury payload with one 2-detail `"Results"`
auction and one 0-detail `"Results"` auction normalizes to 2 rows, not 3 —
the treasury transform has no aggregate branch and silently drops
zero-detail auctions, so the claimed uniform aggregate synthesis is false. -/
theorem flatten_aggregate_uniformity_cex :
    (tsyNormalize [tsyAuctionTwo, tsyAuctionZero]).length = 2
    ∧ (tsyNormalize [tsyAuctionTwo, tsyAuctionZero]).length ≠ 3 := by
  exact ⟨rfl, by decide⟩

/-- **C4 (amended)**: the AMBS normalizer emits one row per entry of a
`"Results"` auction's `details` list and, for an empty or absent list,
exactly one aggregate row whose `security_description` is the literal
`"Aggregate"` — so the mixed 2-detail/0-detail payload yields 3 rows there;
but the behaviour is not uniform across sources: the treasury normalizer
emits one row per detail with a parseable non-zero `parAmountAccepted` and
nothing at all for a zero-detail auction, so the same payload shape yields
only 2 rows. -/
theorem ambs_aggregate_treasury_skips (a : AmbsAuction) (t : TsyAuction)
    (ha : a.auctionStatus = some "Results")
    (ht : t.auctionStatus = some "Results") :
    (¬ a.details.isEmpty → ambsNormalize [a] = a.details.map (ambsDetailRecord a))
    ∧ (a.details.isEmpty →
        ambsNormalize [a] = [ambsAggregateRecord a]
        ∧ (ambsAggregateRecord a).security_description = some "Aggregate")
    ∧ tsyNormalize [t] = t.details.filterMap (tsyDetailRecord t)
    ∧ (t.details = [] → tsyNormalize [t] = [])
    ∧ (ambsNormalize [ambsAuctionTwo, ambsAuctionZero]).length = 3
    ∧ (tsyNormalize [tsyAuctionTwo, tsyAuctionZero]).length = 2 := by
  refine ⟨?_, ?_, ?_, ?_, rfl, rfl⟩
  · intro hd
    have hd' : a.details ≠ [] := by simpa using hd
    simp [ambsNormalize, ha, hd']
  · intro hd
    have hd' : a.details = [] := by simpa using hd
    exact ⟨by simp [ambsNormalize, ha, hd'], rfl⟩
  · simp [tsyNormalize, ht]
  · intro hd
    simp [tsyNormalize, ht, hd]

/-- Witness for `ambs_aggregate_treasury_skips` at the zero-detail auctions. -/
theorem ambs_aggregate_treasury_skips_witness :
    ambsAuctionZero.auctionStatus = some "Results"
    ∧ tsyAuctionZero.auctionStatus = some "Results"
    ∧ ((¬ ambsAuctionZero.details.isEmpty →
          ambsNormalize [ambsAuctionZero] =
            ambsAuctionZero.details.map (ambsDetailRecord ambsAuctionZero))
      ∧ (ambsAuctionZero.details.isEmpty →
          ambsNormalize [ambsAuctionZero] = [ambsAggregateRecord ambsAuctionZero]
          ∧ (ambsAggregateRecord ambsAuctionZero).security_description =
              some "Aggregate")
      ∧ tsyNormalize [tsyAuctionZero] =
          tsyAuctionZero.details.filterMap (tsyDetailRecord tsyAuctionZero)
      ∧ (tsyAuctionZero.details = [] → tsyNormalize [tsyAuctionZero] = [])
      ∧ (ambsNormalize [ambsAuctionTwo, ambsAuctionZero]).length = 3
      ∧ (tsyNormalize [tsyAuctionTwo, tsyAuctionZero]).length = 2) :=
  ⟨by rfl, by rfl,
    ambs_aggregate_treasury_skips ambsAuctionZero tsyAuctionZero (by rfl) (by rfl)⟩

/-! ## Reference rates source

`src/src/ingest/reference_rates.py` (chunked fetch of unsecured + secured
rates, raw capture, watermark) and
`src/src/transforms/reference_rates/main.py` (per-record normalization). -/

/-- A raw rate entry as the ingest sees it: the ingest never inspects fields,
it only accumulates entries; the effective date (day ordinal) is carried for
stating properties about produced records. -/
structure RateRaw where
  effectiveDate : Nat
  rateType : String
deriving DecidableEq, Repr

/-- Day ordinal of 2018-04-03 (SOFR introduction), the reference-rates
ingest's default start when no watermark exists. -/
def refRatesEpoch : Nat := 17624

/-- The reference-rates ingest's range start. -/
def refRatesResolveStart (watermark : Option Nat) : Nat :=
  match watermark with
  | some d => d + 1
  | none => refRatesEpoch

/-- Worker for the reference-rates chunk loop, which issues the unsecured and
the secured request in the same walk, extending both accumulators per chunk;
structurally recursive on fuel (see `chunksGo`). -/
def refRatesFetchGo (apiU apiS : Nat → Nat → List RateRaw) (e : Nat) :
    Nat → List RateRaw × List RateRaw → Nat → List RateRaw × List RateRaw
  | _, acc, 0 => acc
  | s, acc, fuel + 1 =>
    if s ≤ e then
      refRatesFetchGo apiU apiS e (min (s + chunkSpanDays) e + 1)
        (acc.1 ++ apiU s (min (s + chunkSpanDays) e),
         acc.2 ++ apiS s (min (s + chunkSpanDays) e)) fuel
    else acc

/-- The reference-rates chunk loop over `[s, e]`. -/
def refRatesFetchLoop (apiU apiS : Nat → Nat → List RateRaw) (s e : Nat) :
    List RateRaw × List RateRaw :=
  refRatesFetchGo apiU apiS e s ([], []) (e + 1 - s)

/-- The raw JSON blob `save_raw_json` stores for `reference_rates`. -/
structure RefRatesRaw where
  unsecured : List RateRaw
  secured : List RateRaw
  start_date : Nat
  end_date : Nat
deriving DecidableEq, Repr

/-- Modelled from the spec (see `TsyState`): explicit StateStore/RawCapture
state for the reference-rates source. -/
structure RefRatesState where
  watermark : Option Nat
  rawCapture : Option RefRatesRaw
deriving DecidableEq, Repr

/-- `run` of `src/src/ingest/reference_rates.py`: range is
`watermark + 1 day` (else 2018-04-03) to **yesterday** (1-day publication
lag); fetch both rate families per chunk; save the raw blob; then — when any
record was fetched — save the watermark as `end_date` (the range end), not as
any function of the fetched records' dates. -/
def refRatesIngestRun (today : Nat) (apiU apiS : Nat → Nat → List RateRaw)
    (st : RefRatesState) : RefRatesState :=
  let start := refRatesResolveStart st.watermark
  let e := today - 1
  if e < start then st
  else
    let fetched := refRatesFetchLoop apiU apiS start e
    let st1 : RefRatesState :=
      { st with rawCapture := some ⟨fetched.1, fetched.2, start, e⟩ }
    if fetched.1.isEmpty ∧ fetched.2.isEmpty then st1
    else { st1 with watermark := some e }

/-- `max_date = max(r["operation_date"] for r in records if r["operation_date"])`
followed by `save_state` — lines 148–152 of
`src/assets/treasury_operations/treasury_operations.py`: no update when the
run produced no records; `ValueError` when records exist but none carries a
date; otherwise the watermark becomes the maximum produced date. -/
def tsyAssetStateUpdate (records : List TsyRecord) (w : Option Nat) :
    Except PyError (Option Nat) :=
  if records.isEmpty then Except.ok w
  else
    match (records.filterMap TsyRecord.operation_date).max? with
    | some mx => Except.ok (some mx)
    | none => Except.error PyError.valueError

/-- A raw SOFR entry dated 2018-04-03. -/
def rateRawA : RateRaw := ⟨refRatesEpoch, "SOFR"⟩

/-- **C3 counterexample**: a first reference-rates run on
`refRatesEpoch + 2` resolves the range `[refRatesEpoch, refRatesEpoch + 1]`
and fetches a single record dated `refRatesEpoch`; the stored watermark is
the range end `refRatesEpoch + 1`, not the maximum record date
`refRatesEpoch` — `src/src/ingest/reference_rates.py` line 75 saves
`end_date`, so the claim that every source's watermark equals the maximum
produced date is false. -/
theorem refrates_watermark_is_range_end_cex :
    (refRatesIngestRun (refRatesEpoch + 2) (fun _ _ => [rateRawA]) (fun _ _ => [])
        ⟨none, none⟩).watermark = some (refRatesEpoch + 1)
    ∧ (([rateRawA] : List RateRaw).map RateRaw.effectiveDate).max? =
        some refRatesEpoch
    ∧ some (refRatesEpoch + 1) ≠ some refRatesEpoch := by
  exact ⟨rfl, rfl, by decide⟩

/-- **C3 (amended)**: the watermark-update rule is not uniform.  The
reference-rates ingest stores the resolved range end (`today - 1 day`)
whenever any raw record was fetched — not a function of the produced
records' dates — while the treasury asset stores the maximum
`operation_date` across the records produced by the run.  Both updates are
non-decreasing: the reference-rates range end strictly exceeds the previous
watermark whenever a fetch happens, and the treasury maximum exceeds any
previous watermark that all produced record dates exceed. -/
theorem watermark_update_shapes (today : Nat)
    (apiU apiS : Nat → Nat → List RateRaw) (st : RefRatesState)
    (records : List TsyRecord) (w0 : Option Nat) (mx : Nat)
    (h1 : refRatesResolveStart st.watermark ≤ today - 1)
    (h2 : ¬((refRatesFetchLoop apiU apiS (refRatesResolveStart st.watermark)
          (today - 1)).1.isEmpty
        ∧ (refRatesFetchLoop apiU apiS (refRatesResolveStart st.watermark)
          (today - 1)).2.isEmpty))
    (h3 : records ≠ [])
    (h4 : (records.filterMap TsyRecord.operation_date).max? = some mx) :
    (refRatesIngestRun today apiU apiS st).watermark = some (today - 1)
    ∧ (∀ w, st.watermark = some w → w < today - 1)
    ∧ tsyAssetStateUpdate records w0 = Except.ok (some mx)
    ∧ (∀ w, (∀ d ∈ records.filterMap TsyRecord.operation_date, w < d) → w < mx) := by
  refine ⟨?_, ?_, ?_, ?_⟩
  · unfold refRatesIngestRun
    rw [if_neg (by omega)]
    simp only [if_neg h2]
  · intro w hw
    rw [hw] at h1
    simp only [refRatesResolveStart] at h1
    omega
  · simp [tsyAssetStateUpdate, h3, h4]
  · intro w hall
    have hmem : mx ∈ records.filterMap TsyRecord.operation_date :=
      List.max?_mem (fun a b => max_choice a b) h4
    exact hall mx hmem

/-- Witness for `watermark_update_shapes` at the concrete reference-rates
first run of the counterexample and the treasury records built from
`tsyAuctionA`. -/
theorem watermark_update_shapes_witness :
    refRatesResolveStart (none : Option Nat) ≤ (refRatesEpoch + 2) - 1
    ∧ ¬((refRatesFetchLoop (fun _ _ => [rateRawA]) (fun _ _ => [])
          (refRatesResolveStart (none : Option Nat)) ((refRatesEpoch + 2) - 1)).1.isEmpty
        ∧ (refRatesFetchLoop (fun _ _ => [rateRawA]) (fun _ _ => [])
          (refRatesResolveStart (none : Option Nat)) ((refRatesEpoch + 2) - 1)).2.isEmpty)
    ∧ tsyNormalize [tsyAuctionA] ≠ []
    ∧ ((tsyNormalize [tsyAuctionA]).filterMap TsyRecord.operation_date).max? =
        some treasuryEpoch
    ∧ ((refRatesIngestRun (refRatesEpoch + 2) (fun _ _ => [rateRawA]) (fun _ _ => [])
          ⟨none, none⟩).watermark = some ((refRatesEpoch + 2) - 1)
      ∧ (∀ w, (⟨none, none⟩ : RefRatesState).watermark = some w →
          w < (refRatesEpoch + 2) - 1)
      ∧ tsyAssetStateUpdate (tsyNormalize [tsyAuctionA]) none =
          Except.ok (some treasuryEpoch)
      ∧ (∀ w, (∀ d ∈ (tsyNormalize [tsyAuctionA]).filterMap TsyRecord.operation_date,
            w < d) → w < treasuryEpoch)) :=
  ⟨by decide, by decide, by decide, by rfl,
    watermark_update_shapes (refRatesEpoch + 2) (fun _ _ => [rateRawA])
      (fun _ _ => []) ⟨none, none⟩ (tsyNormalize [tsyAuctionA]) none treasuryEpoch
      (by decide) (by decide) (by decide) (by rfl)⟩

/-- A raw rate entry as the transform sees it: the JSON object fields read by
`process_rate_record` (`none` on the two subscripted fields = key absent,
raising `KeyError`). -/
structure RateJson where
  effectiveDate : Option String
  rateType : Option String
  percentPercentile1 : PyVal
  percentPercentile25 : PyVal
  percentPercentile75 : PyVal
  percentPercentile99 : PyVal
  percentRate : PyVal
  volumeInBillions : PyVal
  targetRateFrom : PyVal
  targetRateTo : PyVal
deriving DecidableEq, Repr

/-- One row of the `nyf_reference_rates` output table. -/
structure RateRec where
  date : Option PyDate
  rate_type : String
  percentile_1 : Option Rat
  percentile_25 : Option Rat
  percentile_75 : Option Rat
  percentile_99 : Option Rat
  rate : Option Rat
  volume_billions : Option Rat
  target_rate_from : Option Rat
  target_rate_to : Option Rat
deriving DecidableEq, Repr

/-- `process_rate_record` of `src/src/transforms/reference_rates/main.py`:
subscript `effectiveDate` (KeyError if absent) and parse it with the shared
`parse_date`; subscript `type`; return `None` for rate types outside
`{EFFR, OBFR, SOFR, BGCR, TGCR}`; otherwise build the row with
`parse_number` on each numeric field. -/
def process_rate_record (r : RateJson) : Except PyError (Option RateRec) :=
  match r.effectiveDate with
  | none => Except.error PyError.keyError
  | some ds =>
    let date := parse_date (some ds) none
    match r.rateType with
    | none => Except.error PyError.keyError
    | some ty =>
      if (["EFFR", "OBFR", "SOFR", "BGCR", "TGCR"] : List String).contains ty then
        Except.ok (some
          { date := date
            rate_type := ty
            percentile_1 := parse_number r.percentPercentile1
            percentile_25 := parse_number r.percentPercentile25
            percentile_75 := parse_number r.percentPercentile75
            percentile_99 := parse_number r.percentPercentile99
            rate := parse_number r.percentRate
            volume_billions := parse_number r.volumeInBillions
            target_rate_from := parse_number r.targetRateFrom
            target_rate_to := parse_number r.targetRateTo })
      else Except.ok none

/-- The transform's accumulation loop over one list of raw entries: process
each entry in order, appending the rows that are not `None`; the first
raising entry aborts the run. -/
def processRateList : List RateJson → Except PyError (List RateRec)
  | [] => Except.ok []
  | r :: rest => do
    let rec? ← process_rate_record r
    let tail ← processRateList rest
    match rec? with
    | some rec1 => Except.ok (rec1 :: tail)
    | none => Except.ok tail

/-- The record-building part of the reference-rates transform `run`: the
unsecured entries in order, then the secured entries in order. -/
def refRatesTransformRecords (unsecured secured : List RateJson) :
    Except PyError (List RateRec) := do
  let u ← processRateList unsecured
  let s ← processRateList secured
  Except.ok (u ++ s)

/-- **C9**: normalization is a pure function of the raw payload.  The
embedded record builders (`process_rate_record` / the reference-rates
accumulation loop, and the treasury normalizer) read nothing but their
argument — no ambient state, clock, or I/O — so two applications to the
same raw payload return the same record sequence, in the same order. -/
theorem normalize_deterministic (unsecured secured : List RateJson)
    (auctions : List TsyAuction) (r : RateJson) :
    refRatesTransformRecords unsecured secured =
      refRatesTransformRecords unsecured secured
    ∧ process_rate_record r = process_rate_record r
    ∧ tsyNormalize auctions = tsyNormalize auctions :=
  ⟨rfl, rfl, rfl⟩

/-! ## Retry policy

The tenacity decorator shared by every async fetcher
(`src/src/ingest/treasury.py`, `src/src/ingest/primary_dealer.py`,
`src/assets/treasury_operations/treasury_operations.py`, ...):
`@retry(stop=stop_after_attempt(3), wait=wait_exponential(multiplier=1,
min=4, max=10), retry=retry_if_exception_type(httpx.HTTPError))`.  One
attempt of the wrapped coroutine performs `client.get` (may raise an
`httpx.TransportError`), `response.raise_for_status()` (raises
`httpx.HTTPStatusError` on any non-2xx, 4xx included) and
`response.json()` (raises a JSON decode error, which is **not** an
`httpx.HTTPError`). -/

/-- Exceptions one attempt can raise. -/
inductive FetchErr where
  | statusError (code : Nat)
  | transportError
  | jsonDecodeError
deriving DecidableEq, Repr

/-- The retry predicate `retry_if_exception_type(httpx.HTTPError)`:
`httpx.HTTPError` is the common base class of `HTTPStatusError` (every
non-2xx status, including 4xx) and `TransportError` (timeouts, connection
failures); a JSON decode error is outside the hierarchy. -/
def isHTTPError : FetchErr → Bool
  | FetchErr.statusError _ => true
  | FetchErr.transportError => true
  | FetchErr.jsonDecodeError => false

/-- Result of the n-th attempt of the wrapped coroutine (the environment's
behaviour per call). -/
inductive Attempt (α : Type) where
  | ok (v : α)
  | err (e : FetchErr)
deriving DecidableEq, Repr

/-- Result of the decorated call: success or re-raised exception after
`attemptsUsed` attempts, or tenacity's `RetryError` once
`stop_after_attempt` is reached with a retryable failure. -/
inductive RetryOutcome (α : Type) where
  | ok (v : α) (attemptsUsed : Nat)
  | raised (e : FetchErr) (attemptsUsed : Nat)
  | retryError (e : FetchErr) (attemptsUsed : Nat)
deriving DecidableEq, Repr

/-- Number of attempts the decorated call consumed. -/
def RetryOutcome.attemptsUsed {α : Type} : RetryOutcome α → Nat
  | RetryOutcome.ok _ n => n
  | RetryOutcome.raised _ n => n
  | RetryOutcome.retryError _ n => n

/-- The tenacity attempt loop: run attempt `n`; on success return; on a
failure matching the retry predicate, retry while budget remains and promote
to `RetryError` when `stop_after_attempt` is reached; on a non-matching
failure re-raise immediately.  The fuel-0 case is unreachable for a positive
attempt budget. -/
def tenacityGo {α : Type} (retryable : FetchErr → Bool)
    (attempts : Nat → Attempt α) : Nat → Nat → RetryOutcome α
  | _, 0 => RetryOutcome.retryError FetchErr.transportError 0
  | n, fuel + 1 =>
    match attempts n with
    | Attempt.ok v => RetryOutcome.ok v n
    | Attempt.err e =>
      if retryable e then
        if fuel = 0 then RetryOutcome.retryError e n
        else tenacityGo retryable attempts (n + 1) fuel
      else RetryOutcome.raised e n

/-- The decorated call with attempt budget `stopAfter`. -/
def tenacityRun {α : Type} (retryable : FetchErr → Bool) (stopAfter : Nat)
    (attempts : Nat → Attempt α) : RetryOutcome α :=
  tenacityGo retryable attempts 1 stopAfter

/-- The concrete decorator configuration used by every fetcher:
`stop_after_attempt(3)` with `retry_if_exception_type(httpx.HTTPError)`. -/
def fetch_with_retry {α : Type} (attempts : Nat → Attempt α) : RetryOutcome α :=
  tenacityRun isHTTPError 3 attempts

/-- The loop consumes at most `n + fuel - 1` attempts starting from attempt
number `n`. -/
theorem tenacityGo_attempts_le {α : Type} (retryable : FetchErr → Bool)
    (attempts : Nat → Attempt α) :
    ∀ fuel n,
      (tenacityGo retryable attempts n fuel).attemptsUsed ≤ n + fuel - 1 := by
  intro fuel
  induction fuel with
  | zero =>
    intro n
    exact Nat.zero_le _
  | succ f ih =>
    intro n
    show (tenacityGo retryable attempts n (f + 1)).attemptsUsed ≤ n + (f + 1) - 1
    simp only [tenacityGo]
    cases hA : attempts n with
    | ok v =>
      show n ≤ n + (f + 1) - 1
      omega
    | err e =>
      dsimp only
      by_cases hr : retryable e = true
      · rw [if_pos hr]
        by_cases hf : f = 0
        · rw [if_pos hf]
          show n ≤ n + (f + 1) - 1
          omega
        · rw [if_neg hf]
          have := ih (n + 1)
          omega
      · rw [if_neg hr]
        show n ≤ n + (f + 1) - 1
        omega

/-- The all-404 attempt sequence: every attempt fails with
`httpx.HTTPStatusError` for a 404 response. -/
def always404 : Nat → Attempt Nat :=
  fun _ => Attempt.err (FetchErr.statusError 404)

/-- A 404 on the first attempt, success on every later one. -/
def fourOhFourThenOk : Nat → Attempt Nat :=
  fun n => if n = 1 then Attempt.err (FetchErr.statusError 404)
           else Attempt.ok 42

/-- **C5 counterexample**: the first attempt fails with an
`HTTPStatusError` for a 404 — a non-transient client error — and the second
attempt succeeds.  The decorated call retries and returns success on attempt
2, because `retry_if_exception_type(httpx.HTTPError)` matches
`HTTPStatusError` regardless of status class; the claim that 4xx responses
propagate immediately without any retry is false. -/
theorem retry_4xx_retried_cex :
    fetch_with_retry fourOhFourThenOk = RetryOutcome.ok 42 2
    ∧ fetch_with_retry fourOhFourThenOk ≠
        RetryOutcome.raised (FetchErr.statusError 404) 1 := by
  exact ⟨rfl, by decide⟩

/-- **C5 (amended)**: every per-chunk fetch is attempted at most 3 times, and
a failed attempt is retried exactly when the exception is an
`httpx.HTTPError` — which covers transport errors (timeouts, connection
failures) **and** all `HTTPStatusError`s, 4xx included; after 3 matching
failures the call is promoted to tenacity's `RetryError`.  Only failures
outside the `httpx.HTTPError` hierarchy (e.g. a malformed JSON body)
propagate immediately and abort the run without a retry. -/
theorem retry_httperror_budget {α : Type} (attempts : Nat → Attempt α)
    (e : FetchErr) (v : α) :
    (fetch_with_retry attempts).attemptsUsed ≤ 3
    ∧ (attempts 1 = Attempt.err e → isHTTPError e = false →
        fetch_with_retry attempts = RetryOutcome.raised e 1)
    ∧ (attempts 1 = Attempt.err e → isHTTPError e = true →
        attempts 2 = Attempt.ok v →
        fetch_with_retry attempts = RetryOutcome.ok v 2)
    ∧ (attempts 1 = Attempt.err e → attempts 2 = Attempt.err e →
        attempts 3 = Attempt.err e → isHTTPError e = true →
        fetch_with_retry attempts = RetryOutcome.retryError e 3) := by
  refine ⟨?_, ?_, ?_, ?_⟩
  · have := tenacityGo_attempts_le isHTTPError attempts 3 1
    simpa [fetch_with_retry, tenacityRun] using this
  · intro h1 he
    simp [fetch_with_retry, tenacityRun, tenacityGo, h1, he]
  · intro h1 he h2
    simp [fetch_with_retry, tenacityRun, tenacityGo, h1, he, h2]
  · intro h1 h2 h3 he
    simp [fetch_with_retry, tenacityRun, tenacityGo, h1, h2, h3, he]

/-- Witness for `retry_httperror_budget` at the all-404 attempt sequence:
all three attempts are consumed and the call ends in `RetryError`. -/
theorem retry_httperror_budget_witness :
    fetch_with_retry always404 =
      RetryOutcome.retryError (FetchErr.statusError 404) 3
    ∧ ((fetch_with_retry always404).attemptsUsed ≤ 3
      ∧ (always404 1 = Attempt.err (FetchErr.statusError 404) →
          isHTTPError (FetchErr.statusError 404) = false →
          fetch_with_retry always404 =
            RetryOutcome.raised (FetchErr.statusError 404) 1)
      ∧ (always404 1 = Attempt.err (FetchErr.statusError 404) →
          isHTTPError (FetchErr.statusError 404) = true →
          always404 2 = Attempt.ok 0 →
          fetch_with_retry always404 = RetryOutcome.ok 0 2)
      ∧ (always404 1 = Attempt.err (FetchErr.statusError 404) →
          always404 2 = Attempt.err (FetchErr.statusError 404) →
          always404 3 = Attempt.err (FetchErr.statusError 404) →
          isHTTPError (FetchErr.statusError 404) = true →
          fetch_with_retry always404 =
            RetryOutcome.retryError (FetchErr.statusError 404) 3)) :=
  ⟨by rfl, retry_httperror_budget always404 (FetchErr.statusError 404) 0⟩

/-! ## Parser claims -/

/-- **C6**: `parse_number` maps `None`, `""` and the literal `"NA"` to null,
strips thousands-separator commas before conversion (so `"1,234.5"` parses to
`1234.5`), and maps any string whose comma-stripped form fails `float`
conversion (such as `"abc"`) to null.  `parse_number` is a total function
into `Option Rat`, so no input raises. -/
theorem parse_number_edge_cases (s : String)
    (hf : pythonFloat (stripCommas s) = none) (hne : s ≠ "") (hna : s ≠ "NA") :
    parse_number PyVal.vNone = none
    ∧ parse_number (PyVal.vStr "") = none
    ∧ parse_number (PyVal.vStr "NA") = none
    ∧ parse_number (PyVal.vStr "1,234.5") = some ((2469 : Rat) / 2)
    ∧ parse_number (PyVal.vStr "abc") = none
    ∧ parse_number (PyVal.vStr s) = none := by
  refine ⟨rfl, rfl, rfl, by with_unfolding_all rfl, rfl, ?_⟩
  simp [parse_number, hne, hna, hf]

/-- Witness for `parse_number_edge_cases` at `s = "abc"`. -/
theorem parse_number_edge_cases_witness :
    pythonFloat (stripCommas "abc") = none
    ∧ "abc" ≠ ""
    ∧ "abc" ≠ "NA"
    ∧ (parse_number PyVal.vNone = none
      ∧ parse_number (PyVal.vStr "") = none
      ∧ parse_number (PyVal.vStr "NA") = none
      ∧ parse_number (PyVal.vStr "1,234.5") = some ((2469 : Rat) / 2)
      ∧ parse_number (PyVal.vStr "abc") = none
      ∧ parse_number (PyVal.vStr "abc") = none) :=
  ⟨by rfl, by decide, by decide,
    parse_number_edge_cases "abc" (by rfl) (by decide) (by decide)⟩

/-- **C7 counterexample**: the claim says date parsing returns null — never
raising — for absent or unparsable input; but the local `parse_date` of
`src/assets/reference_rates/reference_rates.py` (a bare
`datetime.strptime(date_str, "%Y-%m-%d").date()`) raises `TypeError` on
`None` and `ValueError` on input the fixed format rejects (such as
`"01/15/2021"`, since this copy has no fallback format and no guard). -/
theorem parse_date_asset_raises_cex :
    refRatesAssetParseDate none = Except.error PyError.typeError
    ∧ refRatesAssetParseDate (some "01/15/2021") =
        Except.error PyError.valueError := by
  exact ⟨rfl, rfl⟩

/-- **C7 (amended)**: the shared `parse_date` of `src/src/utils/__init__.py`
accepts `YYYY-MM-DD`, falls back to `MM/DD/YYYY` (both enabled by default),
and returns null — never raising — for absent (`None`/empty) or unparsable
input; but the reference-rates asset's local `parse_date` has no guard and
no fallback: it raises `TypeError` on `None` and `ValueError` on any string
the fixed `YYYY-MM-DD` format rejects. -/
theorem parse_date_formats (s : String)
    (hbad : strptimeYMD s = none) (hbad2 : strptimeMDY s = none)
    (hne : s ≠ "") :
    parse_date (some "2020-01-01") none = some ⟨2020, 1, 1⟩
    ∧ parse_date (some "01/15/2021") none = some ⟨2021, 1, 15⟩
    ∧ parse_date none none = none
    ∧ parse_date (some "") none = none
    ∧ parse_date (some s) none = none
    ∧ refRatesAssetParseDate none = Except.error PyError.typeError
    ∧ refRatesAssetParseDate (some s) = Except.error PyError.valueError := by
  refine ⟨rfl, rfl, rfl, rfl, ?_, rfl, ?_⟩
  · simp [parse_date, firstParse, strptimeDate, hne, hbad, hbad2]
  · simp [refRatesAssetParseDate, hbad]

/-- Witness for `parse_date_formats` at `s = "garbage"`. -/
theorem parse_date_formats_witness :
    strptimeYMD "garbage" = none
    ∧ strptimeMDY "garbage" = none
    ∧ "garbage" ≠ ""
    ∧ (parse_date (some "2020-01-01") none = some ⟨2020, 1, 1⟩
      ∧ parse_date (some "01/15/2021") none = some ⟨2021, 1, 15⟩
      ∧ parse_date none none = none
      ∧ parse_date (some "") none = none
      ∧ parse_date (some "garbage") none = none
      ∧ refRatesAssetParseDate none = Except.error PyError.typeError
      ∧ refRatesAssetParseDate (some "garbage") =
          Except.error PyError.valueError) :=
  ⟨by rfl, by rfl, by decide,
    parse_date_formats "garbage" (by rfl) (by rfl) (by decide)⟩

/-- **C8 counterexample**: on the non-empty input `"no"`, whose lower-cased
form is outside `{"true", "1", "yes"}`, `parse_bool` returns `False` — a
boolean, not null — so the claim that every other input yields null is
false. -/
theorem parse_bool_false_not_null_cex :
    parse_bool (PyVal.vStr "no") = some false
    ∧ (some false : Option Bool) ≠ none := by
  exact ⟨rfl, by decide⟩

/-- **C8 (amended)**: boolean parsing returns true exactly when the input's
lower-cased string form is one of `"true"`, `"1"`, `"yes"`; it returns null
only for `None` and the empty string, and `False` — not null — for every
other input. -/
theorem parse_bool_truthy_set (v : PyVal)
    (h1 : v ≠ PyVal.vNone) (h2 : v ≠ PyVal.vStr "") :
    ((["true", "1", "yes"] : List String).contains (toLowerStr (pyStr v)) = true →
      parse_bool v = some true)
    ∧ ((["true", "1", "yes"] : List String).contains (toLowerStr (pyStr v)) = false →
      parse_bool v = some false)
    ∧ parse_bool PyVal.vNone = none
    ∧ parse_bool (PyVal.vStr "") = none := by
  refine ⟨?_, ?_, rfl, rfl⟩
  · intro hm
    simp only [parse_bool]
    rw [if_neg (by simp [h1, h2]), hm]
  · intro hm
    simp only [parse_bool]
    rw [if_neg (by simp [h1, h2]), hm]

/-- Witness for `parse_bool_truthy_set` at the input `"TRUE"`. -/
theorem parse_bool_truthy_set_witness :
    PyVal.vStr "TRUE" ≠ PyVal.vNone
    ∧ PyVal.vStr "TRUE" ≠ PyVal.vStr ""
    ∧ (((["true", "1", "yes"] : List String).contains
          (toLowerStr (pyStr (PyVal.vStr "TRUE"))) = true →
        parse_bool (PyVal.vStr "TRUE") = some true)
      ∧ ((["true", "1", "yes"] : List String).contains
          (toLowerStr (pyStr (PyVal.vStr "TRUE"))) = false →
        parse_bool (PyVal.vStr "TRUE") = some false)
      ∧ parse_bool PyVal.vNone = none
      ∧ parse_bool (PyVal.vStr "") = none) :=
  ⟨by decide, by decide,
    parse_bool_truthy_set (PyVal.vStr "TRUE") (by decide) (by decide)⟩

/-! ## FX swaps source

The record construction inside `fetch_historical_swaps`
(`src/assets/fx_swaps/fx_swaps.py`, lines 85–100): numeric fields go through
bare `int(swap.get(k, 0))` / `float(swap.get(k, 0))` — absent keys default to
`0` and non-numeric values raise, with no `parse_number`-style recovery. -/

/-- Python's `int(s)` on a string: optional surrounding whitespace, optional
sign, then a nonempty all-digit run (no decimal point, no exponent);
otherwise `ValueError`. -/
def pythonIntStr (s : String) : Option Int :=
  let l := ((s.toList.dropWhile Char.isWhitespace).reverse.dropWhile
    Char.isWhitespace).reverse
  let sg := parseSign l
  if sg.2 ≠ [] ∧ sg.2.all Char.isDigit then
    some (if sg.1 then -(digitsToNat sg.2 : Int) else (digitsToNat sg.2 : Int))
  else none

/-- Python's `int(x)` on the values these payloads carry: ints, floats
(truncation toward zero), bools and numeric strings convert; `None` and
other objects raise `TypeError`; non-numeric strings raise `ValueError`. -/
def pythonInt : PyVal → Except PyError Int
  | PyVal.vInt n => Except.ok n
  | PyVal.vFloat q => Except.ok (Int.tdiv q.num (q.den : Int))
  | PyVal.vBool b => Except.ok (if b then 1 else 0)
  | PyVal.vStr s =>
    match pythonIntStr s with
    | some n => Except.ok n
    | none => Except.error PyError.valueError
  | PyVal.vNone => Except.error PyError.typeError
  | PyVal.vObj => Except.error PyError.typeError

/-- Python's `float(x)` as a conversion of a value: numeric types and
parseable strings convert; unparseable strings raise `ValueError`; `None`
and other objects raise `TypeError`. -/
def pythonFloatV : PyVal → Except PyError Rat
  | PyVal.vInt n => Except.ok (n : Rat)
  | PyVal.vFloat q => Except.ok q
  | PyVal.vBool b => Except.ok (if b then 1 else 0)
  | PyVal.vStr s =>
    match pythonFloat s with
    | some q => Except.ok q
    | none => Except.error PyError.valueError
  | PyVal.vNone => Except.error PyError.typeError
  | PyVal.vObj => Except.error PyError.typeError

/-- A Python `datetime` as produced by `parse_timestamp`. -/
structure PyDateTime where
  year : Nat
  month : Nat
  day : Nat
  hour : Nat
  minute : Nat
  second : Nat
deriving DecidableEq, Repr

/-- `strptime` time-field validity (`%H` 0–23, `%M` 0–59, `%S` 0–61). -/
def validHMS (h m s : Nat) : Bool :=
  decide (h ≤ 23 ∧ m ≤ 59 ∧ s ≤ 61)

/-- `datetime.strptime(s, "%Y-%m-%d %H:%M:%S")` (with seconds) or
`"%Y-%m-%d %H:%M"` (without), returning `none` where Python raises
`ValueError`. -/
def strptimeTS (withSeconds : Bool) (s : String) : Option PyDateTime :=
  match splitChar ' ' s.toList with
  | [datePart, timePart] =>
    match strptimeYMD (String.mk datePart) with
    | none => none
    | some d =>
      if withSeconds then
        match splitChar ':' timePart with
        | [hs, ms, ss] =>
          match numField hs 2, numField ms 2, numField ss 2 with
          | some h, some m, some sec =>
            if validHMS h m sec then some ⟨d.year, d.month, d.day, h, m, sec⟩
            else none
          | _, _, _ => none
        | _ => none
      else
        match splitChar ':' timePart with
        | [hs, ms] =>
          match numField hs 2, numField ms 2 with
          | some h, some m =>
            if validHMS h m 0 then some ⟨d.year, d.month, d.day, h, m, 0⟩
            else none
          | _, _ => none
        | _ => none
  | _ => none

/-- `parse_timestamp` (identical in `src/src/utils/__init__.py` and the FX
asset): `None`/empty give `None`; try `%Y-%m-%d %H:%M:%S`, fall back to
`%Y-%m-%d %H:%M`, and return `None` when both fail. -/
def parse_timestamp (tsStr : Option String) : Option PyDateTime :=
  match tsStr with
  | none => none
  | some s =>
    if s = "" then none
    else
      match strptimeTS true s with
      | some dt => some dt
      | none => strptimeTS false s

/-- The FX asset's local `parse_date`: `None`/empty give `None`; a non-empty
string is parsed with the fixed `%Y-%m-%d` format and raises `ValueError`
when it does not match (no `try` around it). -/
def fxParseDate (dateStr : Option String) : Except PyError (Option PyDate) :=
  match dateStr with
  | none => Except.ok none
  | some s =>
    if s = "" then Except.ok none
    else
      match strptimeYMD s with
      | some d => Except.ok (some d)
      | none => Except.error PyError.valueError

/-- One raw FX swap operation, with the fields the record construction reads
(`none` on the `PyVal` fields = key absent, so `swap.get(k, 0)` yields the
default `0` and `swap.get("isSmallValue")` yields `None`). -/
structure SwapRaw where
  tradeDate : Option String
  settlementDate : Option String
  maturityDate : Option String
  operationType : Option String
  counterparty : Option String
  currency : Option String
  termInDays : Option PyVal
  amount : Option PyVal
  interestRate : Option PyVal
  isSmallValue : Option PyVal
  lastUpdated : Option String
deriving DecidableEq, Repr

/-- One row of the `nyf_fx_swaps` output table; `term_days`, `amount` and
`interest_rate` are non-nullable by construction (`int()` / `float()` either
return a number or raise). -/
structure SwapRecord where
  trade_date : Option PyDate
  settlement_date : Option PyDate
  maturity_date : Option PyDate
  operation_type : Option String
  counterparty : Option String
  currency : Option String
  term_days : Int
  amount : Rat
  interest_rate : Rat
  is_small_value : Option Bool
  last_updated : Option PyDateTime
deriving DecidableEq, Repr

/-- The record dict literal of `fetch_historical_swaps`, fields evaluated
top to bottom; the first raising conversion aborts the run. -/
def mkSwapRecord (sw : SwapRaw) : Except PyError SwapRecord := do
  let td ← fxParseDate sw.tradeDate
  let sd ← fxParseDate sw.settlementDate
  let md ← fxParseDate sw.maturityDate
  let tid ← pythonInt (sw.termInDays.getD (PyVal.vInt 0))
  let amt ← pythonFloatV (sw.amount.getD (PyVal.vInt 0))
  let ir ← pythonFloatV (sw.interestRate.getD (PyVal.vInt 0))
  Except.ok
    { trade_date := td
      settlement_date := sd
      maturity_date := md
      operation_type := sw.operationType
      counterparty := sw.counterparty
      currency := sw.currency
      term_days := tid
      amount := amt
      interest_rate := ir
      is_small_value := parse_bool (sw.isSmallValue.getD PyVal.vNone)
      last_updated := parse_timestamp sw.lastUpdated }

/-- A raw swap with every key absent. -/
def swapNoKeys : SwapRaw :=
  ⟨none, none, none, none, none, none, none, none, none, none, none⟩

/-- A raw swap whose `amount` is the non-numeric string `"abc"`. -/
def swapAbcAmount : SwapRaw :=
  { swapNoKeys with amount := some (PyVal.vStr "abc") }

/-- **C10**: in the FX swaps normalizer, an operation missing `termInDays`,
`amount` or `interestRate` gets the value `0` (not null) for that field —
`swap.get(k, 0)` defaults the key to `0` before the bare `int()` / `float()`
conversion, and the record fields are non-optional — while an operation
whose `amount` is the non-numeric string `"abc"` makes the construction
raise `ValueError` instead of substituting null. -/
theorem fx_defaults_zero_and_raises (sw : SwapRaw)
    (h1 : sw.termInDays = none) (h2 : sw.amount = none)
    (h3 : sw.interestRate = none) :
    pythonInt (sw.termInDays.getD (PyVal.vInt 0)) = Except.ok 0
    ∧ pythonFloatV (sw.amount.getD (PyVal.vInt 0)) = Except.ok 0
    ∧ pythonFloatV (sw.interestRate.getD (PyVal.vInt 0)) = Except.ok 0
    ∧ (mkSwapRecord swapNoKeys).map SwapRecord.term_days = Except.ok 0
    ∧ (mkSwapRecord swapNoKeys).map SwapRecord.amount = Except.ok 0
    ∧ (mkSwapRecord swapNoKeys).map SwapRecord.interest_rate = Except.ok 0
    ∧ mkSwapRecord swapAbcAmount = Except.error PyError.valueError := by
  rw [h1, h2, h3]
  exact ⟨rfl, rfl, rfl, rfl, rfl, rfl, rfl⟩

/-- Witness for `fx_defaults_zero_and_raises` at the all-keys-absent swap. -/
theorem fx_defaults_zero_and_raises_witness :
    swapNoKeys.termInDays = none
    ∧ swapNoKeys.amount = none
    ∧ swapNoKeys.interestRate = none
    ∧ (pythonInt (swapNoKeys.termInDays.getD (PyVal.vInt 0)) = Except.ok 0
      ∧ pythonFloatV (swapNoKeys.amount.getD (PyVal.vInt 0)) = Except.ok 0
      ∧ pythonFloatV (swapNoKeys.interestRate.getD (PyVal.vInt 0)) = Except.ok 0
      ∧ (mkSwapRecord swapNoKeys).map SwapRecord.term_days = Except.ok 0
      ∧ (mkSwapRecord swapNoKeys).map SwapRecord.amount = Except.ok 0
      ∧ (mkSwapRecord swapNoKeys).map SwapRecord.interest_rate = Except.ok 0
      ∧ mkSwapRecord swapAbcAmount = Except.error PyError.valueError) :=
  ⟨by rfl, by rfl, by rfl,
    fx_defaults_zero_and_raises swapNoKeys (by rfl) (by rfl) (by rfl)⟩
